import Mathlib

/-!
Shallow embedding of the record-store accessor in
`src/js/indexedDbAccessor.js` (the cached IndexedDB facade of
fotorola-pub), together with proofs about its public operations.

Modelling conventions:
* A record is a structure with the primary key `id : String`, the
  `UploadDate` field used by the paging index (modelled as an integer
  timestamp, since the code compares `new Date(x)` values numerically),
  and an opaque `payload` standing for all remaining fields; deep
  equality of JS objects is structural equality of this structure.
* An object store (one collection) is the list of its records in the
  store's cursor iteration order, i.e. ascending primary-key order;
  `put` inserts at the key position, replacing an existing record with
  the same id (IndexedDB keyPath = "id").
* The module-level `memoryCache` (a JS `Map` from `"collection:id"` to
  `{value, expires}`) is an association list in insertion order;
  `Map.get` is first-match lookup, `Map.set` replaces in place or
  appends.
* `Date.now()` is passed in explicitly as `now : Int`; `CACHE_TTL` is
  the constant 86400000 from line 3 of the source.
* JS falsiness of the string arguments is `= ""`; a missing/null record
  argument is `Option.none`.  A JS value that can be a record,
  `undefined` or `null` is modelled by `JsVal`.
* Each operation is a pure function from its inputs and the mutable
  module state (store contents, cache) to a result and the new state.
  Promise resolution with `v` is `JsResult.ok v`; rejection is
  `JsResult.err msg`.  Where an operation's externally observable
  behaviour depends on whether the underlying store was touched, the
  result carries an explicit flag (`storeRead`, `dbOpened`).
-/

namespace IndexedDb

/-- A stored record: primary key `id`, the `UploadDate` field used by
the secondary index, and `payload` standing for every other field. -/
structure Rec where
  id : String
  UploadDate : Int
  payload : String
deriving DecidableEq, Repr

/-- Result of a JS promise: resolved value or rejection message. -/
inductive JsResult (α : Type) where
  | ok : α → JsResult α
  | err : String → JsResult α
deriving DecidableEq, Repr

/-- A JS value that is either an object (record), `undefined`, or
`null`; needed because `getBulk` distinguishes `undefined` (a get
request that found nothing) from `null` (a failed request), filtering
only the latter (`item !== null`, line 503). -/
inductive JsVal where
  | obj : Rec → JsVal
  | undefined : JsVal
  | null : JsVal
deriving DecidableEq, Repr

/-- One entry of the in-memory cache: `{ value, expires }`
(lines 318-321 of the source). -/
structure CacheEntry where
  value : Rec
  expires : Int
deriving DecidableEq, Repr

/-- The module-level `memoryCache` (line 1): a `Map` from cache key to
entry, modelled as an association list in insertion order. -/
abbrev Cache := List (String × CacheEntry)

/-- `CACHE_TTL = 86400000` ms (line 3 of the source). -/
def CACHE_TTL : Int := 86400000

/-- `CACHE_ENABLED = true` (line 2 of the source). -/
def CACHE_ENABLED : Bool := true

/-- Cache key `collection + ":" + id` (e.g. line 293). -/
def cacheKey (collectionName id : String) : String :=
  collectionName ++ ":" ++ id

/-- `memoryCache.get key`: first-match association lookup. -/
def cacheGet : Cache → String → Option CacheEntry
  | [], _ => none
  | (k, e) :: rest, key => if k = key then some e else cacheGet rest key

/-- `memoryCache.set key e`: replace in place if the key exists,
otherwise append (JS `Map.set` keeps the original key position). -/
def cacheSet : Cache → String → CacheEntry → Cache
  | [], key, e => [(key, e)]
  | (k, e0) :: rest, key, e =>
    if k = key then (k, e) :: rest else (k, e0) :: cacheSet rest key e

/-- `key.startsWith(pre)` from JS (line 439). -/
def jsStartsWith (key pre : String) : Bool :=
  key.take pre.length == pre

/-- Store lookup by primary key (`store.get(id)`, line 308). -/
def storeGet : List Rec → String → Option Rec
  | [], _ => none
  | r :: rest, id => if r.id = id then some r else storeGet rest id

/-- `store.put(value)` on a store with keyPath "id": replace the record
with the same key, or insert at its key position so cursor order stays
ascending by id (line 189). -/
def storePut : List Rec → Rec → List Rec
  | [], v => [v]
  | r :: rest, v =>
    if v.id = r.id then v :: rest
    else if v.id < r.id then v :: r :: rest
    else r :: storePut rest v

/-- Result of `set` / `deleteRecord`: the promise outcome plus the
module state (store contents and cache) after the call. -/
structure SetResult where
  result : JsResult Bool
  store : List Rec
  cache : Cache
deriving DecidableEq, Repr

/-- `set(collectionName, value)` (lines 157-203).  Rejects when the
value or the collection name is falsy (lines 159-162) or when
`value.id` is falsy (lines 165-168); otherwise puts the record in one
read-write transaction and resolves `true` from the transaction's
`oncomplete` handler (lines 179-182), i.e. only once the write is
committed, which the model expresses by resolving together with the
updated store.  The function never touches `memoryCache`. -/
def set (collectionName : String) (value : Option Rec)
    (store : List Rec) (cache : Cache) : SetResult :=
  match value with
  | none =>
    { result := .err "Missing value or collection name",
      store := store, cache := cache }
  | some v =>
    if collectionName = "" then
      { result := .err "Missing value or collection name",
        store := store, cache := cache }
    else if v.id = "" then
      { result := .err "Value must have an id property",
        store := store, cache := cache }
    else
      { result := .ok true, store := storePut store v, cache := cache }

/-- `deleteRecord(collectionName, id)` (lines 405-428): deletes the
record with the given key and resolves `true`; `memoryCache` is not
touched. -/
def deleteRecord (collectionName : String) (id : String)
    (store : List Rec) (cache : Cache) : SetResult :=
  { result := .ok true,
    store := store.filter (fun r => r.id != id),
    cache := cache }

/-- Result of `get`: the promise outcome, the cache afterwards, and
whether a read against the underlying store was issued. -/
structure GetResult where
  result : JsResult (Option Rec)
  cache : Cache
  storeRead : Bool
deriving DecidableEq, Repr

/-- `get(collectionName, id)` (lines 284-329).  Validates the
collection name (line 286; the `id === undefined` half of that check
cannot arise for a string-valued id), then consults the cache: a hit
needs `cachedItem.expires > Date.now()` (line 295) and is returned
without touching the store.  On a miss the store is read; a truthy
result is cached with `expires = now + CACHE_TTL` (lines 316-322);
a missing record resolves `undefined` and is not cached. -/
def get (collectionName : String) (id : String) (now : Int)
    (store : List Rec) (cache : Cache) : GetResult :=
  if collectionName = "" then
    { result := .err "Missing collection name or id",
      cache := cache, storeRead := false }
  else
    let hit : Option Rec :=
      if CACHE_ENABLED then
        match cacheGet cache (cacheKey collectionName id) with
        | some e => if now < e.expires then some e.value else none
        | none => none
      else none
    match hit with
    | some v => { result := .ok (some v), cache := cache, storeRead := false }
    | none =>
      match storeGet store id with
      | some v =>
        { result := .ok (some v),
          cache :=
            if CACHE_ENABLED then
              cacheSet cache (cacheKey collectionName id)
                { value := v, expires := now + CACHE_TTL }
            else cache,
          storeRead := true }
      | none => { result := .ok none, cache := cache, storeRead := true }

/-- The cursor loop of `getRange` (lines 218-240): push records while
`items.length < take`, resolving with the accumulated items as soon as
`take` is reached or the cursor is exhausted. -/
def getRangeLoop (take : Nat) : List Rec → List Rec → List Rec
  | items, [] => items
  | items, r :: rest =>
    if items.length < take then getRangeLoop take (items ++ [r]) rest
    else items

/-- `getRange(collectionName, skip, take)` (lines 205-251): a forward
cursor over the store; on the first record, if `skip > 0`, the cursor
advances past the first `skip` records (lines 227-231); then the loop
accumulates up to `take` records in iteration order. -/
def getRange (store : List Rec) (skip take : Nat) : List Rec :=
  getRangeLoop take [] (if 0 < skip then store.drop skip else store)

/-- Which internal failure, if any, a `count` call runs into.  The
constructors map to the failure points of lines 253-282:
`openFailure` - `await getDatabase()` rejects (caught by the
`try/catch`, line 278); `txCreateFailure` - `db.transaction` throws
synchronously inside the Promise executor, e.g. `NotFoundError` for a
missing collection (line 258; a throw inside an executor rejects that
promise, it does not reach the outer `catch`, which has already
returned); `txOrRequestFailure` - the `transaction.onerror` or
`countRequest.onerror` handler fires and calls `reject`
(lines 261-264, 273-276). -/
inductive CountFailure where
  | success
  | openFailure
  | txCreateFailure
  | txOrRequestFailure
deriving DecidableEq, Repr

/-- `count(collectionName)` (lines 253-282).  Resolves the store size
on success; resolves `0` only when opening the database fails (the sole
path into the `catch` of line 278); a synchronous `db.transaction`
throw or a transaction/count-request error rejects. -/
def count (failure : CountFailure) (store : List Rec) : JsResult Nat :=
  match failure with
  | .success => .ok store.length
  | .openFailure => .ok 0
  | .txCreateFailure => .err "NotFoundError"
  | .txOrRequestFailure => .err "TransactionError"

/-- `clearCache(collectionName = null)` (lines 431-445): a falsy
argument (absent, null, or the empty string) clears the whole map;
otherwise every key starting with `collectionName + ":"` is deleted. -/
def clearCache (collectionName : Option String) (cache : Cache) : Cache :=
  match collectionName with
  | none => []
  | some c =>
    if c = "" then []
    else cache.filter (fun kv => !(jsStartsWith kv.1 (c ++ ":")))

/-- The sort of the no-index fallback of `getAllPagedByDate`
(line 388): `items.sort((a, b) => new Date(b.UploadDate) - new
Date(a.UploadDate))`, a stable descending sort by `UploadDate`,
modelled as stable insertion sort. -/
def insertByDateDesc (v : Rec) : List Rec → List Rec
  | [] => [v]
  | r :: rest =>
    if r.UploadDate < v.UploadDate then v :: r :: rest
    else r :: insertByDateDesc v rest

/-- See `insertByDateDesc`. -/
def sortByDateDesc : List Rec → List Rec
  | [] => []
  | r :: rest => insertByDateDesc r (sortByDateDesc rest)

/-- Comparison underlying the `UploadDate` index order: ascending by
`(UploadDate, primary key)`. -/
def idxBefore (a b : Rec) : Bool :=
  a.UploadDate < b.UploadDate || (a.UploadDate == b.UploadDate && a.id < b.id)

/-- Insertion step for `indexDescOrder`. -/
def insertIdxDesc (v : Rec) : List Rec → List Rec
  | [] => [v]
  | r :: rest =>
    if idxBefore r v then v :: r :: rest else r :: insertIdxDesc v rest

/-- Iteration order of `index.openCursor(null, "prev")` (line 369): the
records sorted descending by `(UploadDate, primary key)`. -/
def indexDescOrder : List Rec → List Rec
  | [] => []
  | r :: rest => insertIdxDesc r (indexDescOrder rest)

/-- The cursor loop of `getAllPagedByDate` (lines 372-393): push, then
resolve as soon as `items.length >= take` (so the resolve can happen
before the fallback sort); the Bool records whether the loop resolved
early (`true`) or the cursor was exhausted (`false`). -/
def pagedLoop (take : Nat) : List Rec → List Rec → List Rec × Bool
  | items, [] => (items, false)
  | items, r :: rest =>
    let items' := items ++ [r]
    if take ≤ items'.length then (items', true)
    else pagedLoop take items' rest

/-- `getAllPagedByDate(collectionName, skip, take)` (lines 354-403).
With the `UploadDate` index (`hasIndex = true`) the cursor iterates in
descending index order; without it, in plain store order.  `skip` is
applied by `cursor.advance(skip)` on the first record (lines 375-379).
If the loop reaches `take` items it resolves them as-is (lines
381-384); only when the cursor is exhausted does the no-index branch
sort by `UploadDate` descending before slicing (lines 387-391). -/
def getAllPagedByDate (hasIndex : Bool) (store : List Rec)
    (skip take : Nat) : List Rec :=
  let source := if hasIndex then indexDescOrder store else store
  let afterSkip := if 0 < skip then source.drop skip else source
  match pagedLoop take [] afterSkip with
  | (items, true) => items
  | (items, false) =>
    let sorted := if hasIndex then items else sortByDateDesc items
    sorted.take take

/-- Boolean check that a list of records is non-increasing in
`UploadDate`. -/
def nonIncreasingByDate : List Rec → Bool
  | a :: b :: rest =>
    (b.UploadDate ≤ a.UploadDate) && nonIncreasingByDate (b :: rest)
  | _ => true

/-- The per-id store fetch of `getBulk` (lines 484-500): an errored
request resolves `null` (line 498); a successful request resolves
`request.result`, which is the record or `undefined`. -/
def jsOfStore : Option Rec → JsVal
  | some r => .obj r
  | none => .undefined

/-- See `jsOfStore`; `failSet` lists the ids whose individual get
request errors. -/
def bulkFetchOne (store : List Rec) (failSet : List String)
    (id : String) : JsVal :=
  if failSet.contains id then .null else jsOfStore (storeGet store id)

/-- The cache-partition loop of `getBulk` (lines 459-469): each
requested id (duplicates included) becomes either a cache hit pushed to
`results` or a member of `missingIds`. -/
def bulkPartition (c : String) (now : Int) (cache : Cache) :
    List String → List Rec × List String
  | [] => ([], [])
  | id :: rest =>
    let p := bulkPartition c now cache rest
    match cacheGet cache (cacheKey c id) with
    | some e =>
      if now < e.expires then (e.value :: p.1, p.2)
      else (p.1, id :: p.2)
    | none => (p.1, id :: p.2)

/-- The `Promise.all` fetch of `getBulk` (lines 484-500), threading the
cache writes: a found record is cached with `expires = now + CACHE_TTL`
(lines 489-495); errored requests resolve `null`, missing records
resolve `undefined`, neither is cached. -/
def bulkFetch (c : String) (now : Int) (store : List Rec)
    (failSet : List String) : List String → Cache → List JsVal × Cache
  | [], cache => ([], cache)
  | id :: rest, cache =>
    if failSet.contains id then
      let p := bulkFetch c now store failSet rest cache
      (JsVal.null :: p.1, p.2)
    else
      match storeGet store id with
      | some r =>
        let p := bulkFetch c now store failSet rest
          (cacheSet cache (cacheKey c id)
            { value := r, expires := now + CACHE_TTL })
        (JsVal.obj r :: p.1, p.2)
      | none =>
        let p := bulkFetch c now store failSet rest cache
        (JsVal.undefined :: p.1, p.2)

/-- Result of `getBulk`: the resolved array, the cache afterwards, and
whether `getDatabase()` was reached. -/
structure BulkResult where
  results : List JsVal
  cache : Cache
  dbOpened : Bool
deriving DecidableEq, Repr

/-- `getBulk(collectionName, ids)` (lines 448-508).  A non-array
(`ids = none`) or empty `ids` returns `[]` before `getDatabase()` is
reached (lines 449-451).  Otherwise the ids are partitioned into cache
hits and misses, the misses fetched from the store, and the final array
is `[...results, ...dbResults.filter(item => item !== null)]`
(line 503) - note `undefined !== null` holds in JS, so get requests
that found nothing contribute `undefined` entries. -/
def getBulk (c : String) (ids : Option (List String)) (now : Int)
    (store : List Rec) (cache : Cache) (failSet : List String) :
    BulkResult :=
  match ids with
  | none => { results := [], cache := cache, dbOpened := false }
  | some l =>
    if l.isEmpty then { results := [], cache := cache, dbOpened := false }
    else
      let p := bulkPartition c now cache l
      if p.2.isEmpty then
        { results := p.1.map JsVal.obj, cache := cache, dbOpened := true }
      else
        let q := bulkFetch c now store failSet p.2 cache
        { results := p.1.map JsVal.obj ++ q.1.filter (fun v => v != JsVal.null),
          cache := q.2, dbOpened := true }

/-! ## Library lemmas about the embedded operations -/

/-- A `Map.set` makes the written entry the one returned by `Map.get`
on the same key. -/
theorem cacheGet_cacheSet_self (cache : Cache) (k : String) (e : CacheEntry) :
    cacheGet (cacheSet cache k e) k = some e := by
  induction cache with
  | nil => simp [cacheSet, cacheGet]
  | cons kv rest ih =>
    obtain ⟨k0, e0⟩ := kv
    by_cases h : k0 = k
    · subst h
      simp [cacheSet, cacheGet]
    · simp [cacheSet, cacheGet, h, ih]

/-- A `put` record is what a subsequent keyed lookup returns. -/
theorem storeGet_storePut_self (store : List Rec) (v : Rec) :
    storeGet (storePut store v) v.id = some v := by
  induction store with
  | nil => simp [storePut, storeGet]
  | cons r rest ih =>
    by_cases h1 : v.id = r.id
    · simp [storePut, h1, storeGet]
    · by_cases h2 : v.id < r.id
      · simp [storePut, h1, h2, storeGet]
      · simp [storePut, h1, h2, storeGet, ih, Ne.symm h1]

/-- Closed form of the `getRange` cursor loop: it appends the next
`take - items.length` records to the accumulator. -/
theorem getRangeLoop_eq (take : Nat) (l : List Rec) :
    ∀ items : List Rec,
      getRangeLoop take items l = items ++ l.take (take - items.length) := by
  induction l with
  | nil => intro items; simp [getRangeLoop]
  | cons r rest ih =>
    intro items
    simp only [getRangeLoop]
    by_cases h : items.length < take
    · rw [if_pos h, ih]
      simp only [List.length_append, List.length_cons, List.length_nil,
        List.append_assoc, List.cons_append, List.nil_append]
      have h2 : take - items.length = (take - (items.length + 1)) + 1 := by
        omega
      rw [h2, List.take_succ_cons]
    · rw [if_neg h]
      have h2 : take - items.length = 0 := by omega
      simp [h2]

/-- Lookup after filtering out the keys that start with a given
cache-key prefix. -/
theorem cacheGet_filter_keyPrefix (pfx : String) (cache : Cache) (key : String) :
    cacheGet (cache.filter (fun kv => !(jsStartsWith kv.1 pfx))) key =
      (if jsStartsWith key pfx then none else cacheGet cache key) := by
  induction cache with
  | nil => simp [cacheGet]
  | cons kv rest ih =>
    obtain ⟨k0, e0⟩ := kv
    simp only [List.filter_cons]
    by_cases hk : k0 = key
    · subst hk
      by_cases hp : jsStartsWith k0 pfx = true
      · simp [hp, ih, cacheGet]
      · simp only [Bool.not_eq_true] at hp
        simp [hp, cacheGet]
    · by_cases hp : jsStartsWith k0 pfx = true
      · simp [hp, ih, cacheGet, hk]
      · simp only [Bool.not_eq_true] at hp
        simp [hp, cacheGet, hk, ih]

/-- The fetched `Promise.all` array of `getBulk` is the pointwise fetch
of the missing ids (the cache writes do not feed back into it, since
each fetch reads the store, not the cache). -/
theorem bulkFetch_fst (c : String) (now : Int) (store : List Rec)
    (failSet : List String) (ids : List String) :
    ∀ cache : Cache,
      (bulkFetch c now store failSet ids cache).1
        = ids.map (bulkFetchOne store failSet) := by
  induction ids with
  | nil => intro cache; simp [bulkFetch]
  | cons id rest ih =>
    intro cache
    simp only [bulkFetch, bulkFetchOne, List.map_cons]
    by_cases hf : id ∈ failSet
    · simp [hf, ih]
    · cases hs : storeGet store id with
      | some r => simp [hf, hs, ih, jsOfStore]
      | none => simp [hf, hs, ih, jsOfStore]

/-- The cache-partition loop splits the requested ids: hit count plus
miss count equals the (duplicate-counting) request count. -/
theorem bulkPartition_length (c : String) (now : Int) (cache : Cache)
    (l : List String) :
    (bulkPartition c now cache l).1.length
      + (bulkPartition c now cache l).2.length = l.length := by
  induction l with
  | nil => simp [bulkPartition]
  | cons id rest ih =>
    simp only [bulkPartition, List.length_cons]
    cases h : cacheGet cache (cacheKey c id) with
    | some e =>
      by_cases he : now < e.expires
      · simp only [he, if_true, List.length_cons]
        omega
      · simp only [he, if_false, List.length_cons]
        omega
    | none =>
      simp only [List.length_cons]
      omega

/-- Every hit produced by the cache-partition loop is the value of a
fresh cache entry for one of the requested ids. -/
theorem bulkPartition_hits_mem (c : String) (now : Int) (cache : Cache)
    (l : List String) (v : Rec)
    (hv : v ∈ (bulkPartition c now cache l).1) :
    ∃ id ∈ l, ∃ e, cacheGet cache (cacheKey c id) = some e ∧
      now < e.expires ∧ v = e.value := by
  induction l with
  | nil => simp [bulkPartition] at hv
  | cons id rest ih =>
    simp only [bulkPartition] at hv
    cases h : cacheGet cache (cacheKey c id) with
    | some e =>
      rw [h] at hv
      dsimp only at hv
      by_cases he : now < e.expires
      · rw [if_pos he] at hv
        rcases List.mem_cons.mp hv with h1 | h1
        · exact ⟨id, List.mem_cons_self id rest, e, h, he, h1⟩
        · obtain ⟨i, hi, hrest⟩ := ih h1
          exact ⟨i, List.mem_cons_of_mem id hi, hrest⟩
      · rw [if_neg he] at hv
        obtain ⟨i, hi, hrest⟩ := ih hv
        exact ⟨i, List.mem_cons_of_mem id hi, hrest⟩
    | none =>
      rw [h] at hv
      dsimp only at hv
      obtain ⟨i, hi, hrest⟩ := ih hv
      exact ⟨i, List.mem_cons_of_mem id hi, hrest⟩

/-- Every miss produced by the cache-partition loop is one of the
requested ids. -/
theorem bulkPartition_misses_mem (c : String) (now : Int) (cache : Cache)
    (l : List String) (id : String)
    (hid : id ∈ (bulkPartition c now cache l).2) : id ∈ l := by
  induction l with
  | nil => simp [bulkPartition] at hid
  | cons i rest ih =>
    simp only [bulkPartition] at hid
    cases h : cacheGet cache (cacheKey c i) with
    | some e =>
      rw [h] at hid
      dsimp only at hid
      by_cases he : now < e.expires
      · rw [if_pos he] at hid
        exact List.mem_cons_of_mem i (ih hid)
      · rw [if_neg he] at hid
        rcases List.mem_cons.mp hid with h1 | h1
        · exact h1 ▸ List.mem_cons_self i rest
        · exact List.mem_cons_of_mem i (ih h1)
    | none =>
      rw [h] at hid
      dsimp only at hid
      rcases List.mem_cons.mp hid with h1 | h1
      · exact h1 ▸ List.mem_cons_self i rest
      · exact List.mem_cons_of_mem i (ih h1)

/-! ## Claims -/

/-- C1, counterexample: the claim fails as stated.  A record
`{id:"a", payload:"old"}` is read at time 0 and cached (TTL 86400000);
`set` then overwrites it with `{id:"a", payload:"new"}` and resolves
`true`, but an immediately following `get` at time 1 — inside the TTL
window — answers from the untouched cache and returns the old record,
which is not deep-equal to the record that was written. -/
theorem set_get_stale_cache_cex :
    ((set "ImageData" (some ⟨"a", 0, "new"⟩) [⟨"a", 0, "old"⟩]
        (get "ImageData" "a" 0 [⟨"a", 0, "old"⟩] []).cache).result
      = .ok true) ∧
    (get "ImageData" "a" 1
        (set "ImageData" (some ⟨"a", 0, "new"⟩) [⟨"a", 0, "old"⟩]
          (get "ImageData" "a" 0 [⟨"a", 0, "old"⟩] []).cache).store
        (set "ImageData" (some ⟨"a", 0, "new"⟩) [⟨"a", 0, "old"⟩]
          (get "ImageData" "a" 0 [⟨"a", 0, "old"⟩] []).cache).cache).result
      = .ok (some ⟨"a", 0, "old"⟩) ∧
    (⟨"a", 0, "old"⟩ : Rec) ≠ ⟨"a", 0, "new"⟩ ∧
    (1 : Int) < 0 + CACHE_TTL := by decide

/-- C1, amended: after `set(collection, record)` resolves, an
immediately following `get(collection, record.id)` returns a value
deep-equal to the written record, provided the in-memory cache holds no
unexpired entry for that key at the time of the `get` (e.g. the record
was never read before, the entry has expired, or the cache was
cleared). -/
theorem set_then_get_no_fresh_cache (c : String) (v : Rec) (now : Int)
    (store : List Rec) (cache : Cache)
    (hc : c ≠ "") (hid : v.id ≠ "")
    (hnofresh : ∀ e, cacheGet cache (cacheKey c v.id) = some e →
      e.expires ≤ now) :
    (set c (some v) store cache).result = .ok true ∧
    (get c v.id now (set c (some v) store cache).store
      (set c (some v) store cache).cache).result = .ok (some v) := by
  have hset : set c (some v) store cache
      = { result := .ok true, store := storePut store v, cache := cache } := by
    simp [set, hc, hid]
  rw [hset]
  refine ⟨rfl, ?_⟩
  simp only [get, if_neg hc, CACHE_ENABLED, if_true]
  cases hcg : cacheGet cache (cacheKey c v.id) with
  | none => simp [hcg, storeGet_storePut_self]
  | some e =>
    have hle := hnofresh e hcg
    simp [hcg, storeGet_storePut_self, not_lt.mpr hle]

/-- Witness for the amended C1 theorem at a concrete input. -/
theorem set_then_get_no_fresh_cache_wit :
    (set "Mosaic" (some ⟨"a", 0, "p"⟩) [] []).result = .ok true ∧
    (get "Mosaic" "a" 0 (set "Mosaic" (some ⟨"a", 0, "p"⟩) [] []).store
      (set "Mosaic" (some ⟨"a", 0, "p"⟩) [] []).cache).result
      = .ok (some ⟨"a", 0, "p"⟩) :=
  set_then_get_no_fresh_cache "Mosaic" ⟨"a", 0, "p"⟩ 0 [] []
    (by decide) (by decide) (fun e h => by simp [cacheGet] at h)

/-- C2: the claim describes the intended behaviour (also spelled out in
the spec's fallback description), but the code violates it: with no
`UploadDate` index, the cursor loop resolves as soon as `take` items
are collected (lines 381-384), before the fallback sort of line 388
ever runs, so the records come back in primary-key order.  On the store
`[{id:"a", UploadDate:1}, {id:"b", UploadDate:2}]` with `skip = 0`,
`take = 2`, the result is `[a, b]` with strictly increasing
`UploadDate`, not non-increasing. -/
theorem getAllPagedByDate_fallback_unsorted :
    getAllPagedByDate false [⟨"a", 1, ""⟩, ⟨"b", 2, ""⟩] 0 2
      = [⟨"a", 1, ""⟩, ⟨"b", 2, ""⟩] ∧
    nonIncreasingByDate [⟨"a", 1, ""⟩, ⟨"b", 2, ""⟩] = false ∧
    nonIncreasingByDate (getAllPagedByDate true [⟨"a", 1, ""⟩, ⟨"b", 2, ""⟩] 0 2)
      = true := by decide

/-- C3, counterexample: the claim says `count` resolves to `0` on any
internal failure, but a failure creating the read transaction — e.g.
`NotFoundError` for a collection that does not exist — is thrown inside
the Promise executor (line 258) and rejects the returned promise; the
outer `catch` (line 278) only guards the `getDatabase()` await. -/
theorem count_rejects_on_tx_failure_cex :
    count CountFailure.txCreateFailure [] = .err "NotFoundError" ∧
    count CountFailure.txCreateFailure [] ≠ .ok 0 := by decide

/-- C3, amended: `count(collection)` resolves to the number of records
on success, and resolves to `0` instead of rejecting only when opening
the database connection fails; a transaction-creation throw (e.g.
nonexistent collection) or a transaction/count-request error rejects
the promise. -/
theorem count_amended (store : List Rec) :
    count .success store = .ok store.length ∧
    count .openFailure store = .ok 0 ∧
    count .txCreateFailure store = .err "NotFoundError" ∧
    count .txOrRequestFailure store = .err "TransactionError" :=
  ⟨rfl, rfl, rfl, rfl⟩

/-- Witness for the amended C3 theorem at a concrete store. -/
theorem count_amended_wit :
    count .success [⟨"a", 0, ""⟩] = .ok ([⟨"a", 0, ""⟩] : List Rec).length ∧
    count .openFailure [⟨"a", 0, ""⟩] = .ok 0 ∧
    count .txCreateFailure [⟨"a", 0, ""⟩] = .err "NotFoundError" ∧
    count .txOrRequestFailure [⟨"a", 0, ""⟩] = .err "TransactionError" :=
  count_amended [⟨"a", 0, ""⟩]

/-- C4, counterexample: requesting `["a", "a", "x"]` where only `"a"`
exists yields three entries — the record for `"a"` twice (duplicate ids
are not deduplicated) and an `undefined` entry for `"x"` (a get request
that finds nothing resolves `undefined`, which survives the
`item !== null` filter of line 503) — so the result has more entries
than the two distinct ids requested, and contains an entry that is no
existing record. -/
theorem getBulk_distinct_dropped_cex :
    (getBulk "ImageData" (some ["a", "a", "x"]) 0 [⟨"a", 0, ""⟩] [] []).results
      = [.obj ⟨"a", 0, ""⟩, .obj ⟨"a", 0, ""⟩, .undefined] ∧
    (["a", "a", "x"] : List String).dedup.length = 2 ∧
    JsVal.undefined ∈ (getBulk "ImageData" (some ["a", "a", "x"]) 0
      [⟨"a", 0, ""⟩] [] []).results := by decide

/-- C4, amended: `getBulk(collection, ids)` returns at most
`ids.length` entries (duplicates counted, not distinct ids), and every
returned entry is, for some requested id, either the value of a fresh
cache entry or the store's lookup result for an id whose request did
not error — where a lookup that finds nothing contributes an
`undefined` entry rather than being dropped; only per-id request
errors (which resolve `null`) are dropped. -/
theorem getBulk_entries_amended (c : String) (l : List String) (now : Int)
    (store : List Rec) (cache : Cache) (failSet : List String) (v : JsVal)
    (hv : v ∈ (getBulk c (some l) now store cache failSet).results) :
    (getBulk c (some l) now store cache failSet).results.length ≤ l.length ∧
    v ≠ JsVal.null ∧
    ∃ id ∈ l,
      (∃ e, cacheGet cache (cacheKey c id) = some e ∧ now < e.expires ∧
        v = JsVal.obj e.value) ∨
      (failSet.contains id = false ∧ v = jsOfStore (storeGet store id)) := by
  have hlen := bulkPartition_length c now cache l
  by_cases hemp : l.isEmpty
  · simp [getBulk, hemp] at hv
  · by_cases hm : (bulkPartition c now cache l).2.isEmpty
    · have hres : (getBulk c (some l) now store cache failSet).results
          = (bulkPartition c now cache l).1.map JsVal.obj := by
        simp [getBulk, hemp, hm]
      refine ⟨?_, ?_, ?_⟩
      · rw [hres, List.length_map]
        omega
      · rw [hres] at hv
        obtain ⟨r, _, hr⟩ := List.mem_map.mp hv
        rw [← hr]
        intro h
        exact JsVal.noConfusion h
      · rw [hres] at hv
        obtain ⟨r, hrmem, hr⟩ := List.mem_map.mp hv
        obtain ⟨id, hidl, e, hce, hee, hve⟩ :=
          bulkPartition_hits_mem c now cache l r hrmem
        exact ⟨id, hidl, Or.inl ⟨e, hce, hee, by rw [← hr, hve]⟩⟩
    · have hres : (getBulk c (some l) now store cache failSet).results
          = (bulkPartition c now cache l).1.map JsVal.obj
            ++ ((bulkPartition c now cache l).2.map
                (bulkFetchOne store failSet)).filter
              (fun v => v != JsVal.null) := by
        simp only [getBulk]
        rw [if_neg hemp, if_neg hm,
          bulkFetch_fst c now store failSet (bulkPartition c now cache l).2 cache]
      refine ⟨?_, ?_, ?_⟩
      · rw [hres]
        have h1 : (((bulkPartition c now cache l).2.map
            (bulkFetchOne store failSet)).filter
              (fun v => v != JsVal.null)).length
            ≤ (bulkPartition c now cache l).2.length := by
          calc _ ≤ ((bulkPartition c now cache l).2.map
                (bulkFetchOne store failSet)).length := List.length_filter_le _ _
            _ = _ := List.length_map _ _
        rw [List.length_append, List.length_map]
        omega
      · rw [hres] at hv
        rcases List.mem_append.mp hv with h1 | h1
        · obtain ⟨r, _, hr⟩ := List.mem_map.mp h1
          rw [← hr]
          intro h
          exact JsVal.noConfusion h
        · have := List.of_mem_filter h1
          simpa using this
      · rw [hres] at hv
        rcases List.mem_append.mp hv with h1 | h1
        · obtain ⟨r, hrmem, hr⟩ := List.mem_map.mp h1
          obtain ⟨id, hidl, e, hce, hee, hve⟩ :=
            bulkPartition_hits_mem c now cache l r hrmem
          exact ⟨id, hidl, Or.inl ⟨e, hce, hee, by rw [← hr, hve]⟩⟩
        · have hvmem := List.mem_of_mem_filter h1
          have hvnn : v ≠ JsVal.null := by
            have := List.of_mem_filter h1
            simpa using this
          obtain ⟨id, hidm, hid⟩ := List.mem_map.mp hvmem
          have hidl := bulkPartition_misses_mem c now cache l id hidm
          rw [bulkFetchOne] at hid
          have hcf : failSet.contains id = false := by
            cases h : failSet.contains id
            · rfl
            · rw [if_pos h] at hid
              exact absurd hid.symm hvnn
          rw [hcf] at hid
          simp only [Bool.false_eq_true, if_false] at hid
          exact ⟨id, hidl, Or.inr ⟨hcf, hid.symm⟩⟩

/-- Witness for the amended C4 theorem at a concrete input. -/
theorem getBulk_entries_amended_wit :
    (getBulk "Mosaic" (some ["a"]) 0 [⟨"a", 0, ""⟩] [] []).results.length ≤ 1 ∧
    JsVal.obj ⟨"a", 0, ""⟩ ≠ JsVal.null ∧
    ∃ id ∈ ["a"],
      (∃ e, cacheGet [] (cacheKey "Mosaic" id) = some e ∧ (0 : Int) < e.expires ∧
        JsVal.obj ⟨"a", 0, ""⟩ = JsVal.obj e.value) ∨
      (([] : List String).contains id = false ∧
        JsVal.obj ⟨"a", 0, ""⟩ = jsOfStore (storeGet [⟨"a", 0, ""⟩] id)) :=
  getBulk_entries_amended "Mosaic" ["a"] 0 [⟨"a", 0, ""⟩] [] []
    (JsVal.obj ⟨"a", 0, ""⟩) (by decide)

/-- C5: neither `set` nor `deleteRecord` touches the in-memory TTL
cache — the cache after either call is exactly the cache before,
including any entry for the very key being overwritten or deleted — so
a subsequent `get` within an entry's TTL window still answers from the
cache with the previously cached value and issues no store read. -/
theorem set_delete_preserve_cache (c c' : String) (value : Option Rec)
    (i i' : String) (now : Int) (store : List Rec) (cache : Cache)
    (e : CacheEntry) (hc' : c' ≠ "")
    (he : cacheGet cache (cacheKey c' i') = some e)
    (hfresh : now < e.expires) :
    (set c value store cache).cache = cache ∧
    (deleteRecord c i store cache).cache = cache ∧
    (get c' i' now (set c value store cache).store cache).result
      = .ok (some e.value) ∧
    (get c' i' now (set c value store cache).store cache).storeRead
      = false ∧
    (get c' i' now (deleteRecord c i store cache).store cache).result
      = .ok (some e.value) := by
  have hset : (set c value store cache).cache = cache := by
    cases value with
    | none => rfl
    | some v =>
      simp only [set]
      by_cases h1 : c = ""
      · simp [h1]
      · by_cases h2 : v.id = ""
        · simp [h1, h2]
        · simp [h1, h2]
  have hget : ∀ st : List Rec,
      (get c' i' now st cache).result = .ok (some e.value) ∧
      (get c' i' now st cache).storeRead = false := by
    intro st
    constructor <;> simp [get, hc', CACHE_ENABLED, he, hfresh]
  exact ⟨hset, rfl, (hget _).1, (hget _).2, (hget _).1⟩

/-- Witness for the C5 theorem at a concrete input. -/
theorem set_delete_preserve_cache_wit :
    (set "Mosaic" (some ⟨"a", 0, "new"⟩) [⟨"a", 0, "old"⟩]
      [("Mosaic:a", ⟨⟨"a", 0, "old"⟩, 5⟩)]).cache
      = [("Mosaic:a", ⟨⟨"a", 0, "old"⟩, 5⟩)] ∧
    (deleteRecord "Mosaic" "a" [⟨"a", 0, "old"⟩]
      [("Mosaic:a", ⟨⟨"a", 0, "old"⟩, 5⟩)]).cache
      = [("Mosaic:a", ⟨⟨"a", 0, "old"⟩, 5⟩)] ∧
    (get "Mosaic" "a" 0
      (set "Mosaic" (some ⟨"a", 0, "new"⟩) [⟨"a", 0, "old"⟩]
        [("Mosaic:a", ⟨⟨"a", 0, "old"⟩, 5⟩)]).store
      [("Mosaic:a", ⟨⟨"a", 0, "old"⟩, 5⟩)]).result
      = .ok (some ⟨"a", 0, "old"⟩) ∧
    (get "Mosaic" "a" 0
      (set "Mosaic" (some ⟨"a", 0, "new"⟩) [⟨"a", 0, "old"⟩]
        [("Mosaic:a", ⟨⟨"a", 0, "old"⟩, 5⟩)]).store
      [("Mosaic:a", ⟨⟨"a", 0, "old"⟩, 5⟩)]).storeRead = false ∧
    (get "Mosaic" "a" 0
      (deleteRecord "Mosaic" "a" [⟨"a", 0, "old"⟩]
        [("Mosaic:a", ⟨⟨"a", 0, "old"⟩, 5⟩)]).store
      [("Mosaic:a", ⟨⟨"a", 0, "old"⟩, 5⟩)]).result
      = .ok (some ⟨"a", 0, "old"⟩) :=
  set_delete_preserve_cache "Mosaic" "Mosaic" (some ⟨"a", 0, "new"⟩)
    "a" "a" 0 [⟨"a", 0, "old"⟩] [("Mosaic:a", ⟨⟨"a", 0, "old"⟩, 5⟩)]
    ⟨⟨"a", 0, "old"⟩, 5⟩ (by decide) (by decide) (by decide)

/-- C6: `set` rejects on a missing record, an empty collection name, or
a record whose `id` is absent/falsy, leaving the store unchanged; on
valid inputs it resolves `true` with the record committed.  The promise
resolves from the transaction's `oncomplete` handler (lines 179-182),
not from the put acknowledgment (lines 191-193), so the resolved state
already contains the write, as the lookup conjunct witnesses. -/
theorem set_validation_and_commit (c : String) (v : Rec) (store : List Rec)
    (cache : Cache) :
    (set c none store cache
      = { result := .err "Missing value or collection name",
          store := store, cache := cache }) ∧
    (c = "" → set c (some v) store cache
      = { result := .err "Missing value or collection name",
          store := store, cache := cache }) ∧
    (c ≠ "" → v.id = "" → set c (some v) store cache
      = { result := .err "Value must have an id property",
          store := store, cache := cache }) ∧
    (c ≠ "" → v.id ≠ "" →
      set c (some v) store cache
        = { result := .ok true, store := storePut store v, cache := cache } ∧
      storeGet (storePut store v) v.id = some v) := by
  refine ⟨rfl, ?_, ?_, ?_⟩
  · intro h
    simp [set, h]
  · intro h1 h2
    simp [set, h1, h2]
  · intro h1 h2
    exact ⟨by simp [set, h1, h2], storeGet_storePut_self store v⟩

/-- Witness for the C6 theorem at concrete inputs. -/
theorem set_validation_and_commit_wit :
    set "" (some ⟨"a", 0, ""⟩) [] []
      = { result := .err "Missing value or collection name",
          store := [], cache := [] } ∧
    set "Mosaic" (some ⟨"", 0, ""⟩) [] []
      = { result := .err "Value must have an id property",
          store := [], cache := [] } ∧
    set "Mosaic" (some ⟨"a", 0, ""⟩) [] []
      = { result := .ok true, store := storePut [] ⟨"a", 0, ""⟩,
          cache := [] } :=
  ⟨(set_validation_and_commit "" ⟨"a", 0, ""⟩ [] []).2.1 rfl,
   (set_validation_and_commit "Mosaic" ⟨"", 0, ""⟩ [] []).2.2.1
     (by decide) rfl,
   ((set_validation_and_commit "Mosaic" ⟨"a", 0, ""⟩ [] []).2.2.2
     (by decide) (by decide)).1⟩

/-- C7: after a `get` at time `t0` reads the record from the store and
caches it with expiry `t0 + CACHE_TTL`, a second `get` at any `t1`
strictly before the expiry is a cache hit — same value, no store read —
while a `get` at any `t2` at or past the expiry issues a new store
read. -/
theorem get_cache_ttl (c id : String) (v : Rec) (t0 t1 t2 : Int)
    (store store1 store2 : List Rec) (cache : Cache)
    (hc : c ≠ "")
    (hmiss : ∀ e, cacheGet cache (cacheKey c id) = some e → e.expires ≤ t0)
    (hfound : storeGet store id = some v)
    (ht1 : t1 < t0 + CACHE_TTL)
    (ht2 : t0 + CACHE_TTL ≤ t2) :
    (get c id t0 store cache).storeRead = true ∧
    (get c id t0 store cache).result = .ok (some v) ∧
    cacheGet (get c id t0 store cache).cache (cacheKey c id)
      = some { value := v, expires := t0 + CACHE_TTL } ∧
    (get c id t1 store1 (get c id t0 store cache).cache).result
      = .ok (some v) ∧
    (get c id t1 store1 (get c id t0 store cache).cache).storeRead
      = false ∧
    (get c id t2 store2 (get c id t0 store cache).cache).storeRead
      = true := by
  have h1 : get c id t0 store cache
      = { result := .ok (some v),
          cache := cacheSet cache (cacheKey c id)
            { value := v, expires := t0 + CACHE_TTL },
          storeRead := true } := by
    simp only [get, if_neg hc, CACHE_ENABLED, if_true]
    cases hcg : cacheGet cache (cacheKey c id) with
    | none => simp [hcg, hfound]
    | some e =>
      have hle := hmiss e hcg
      simp [hcg, hfound, not_lt.mpr hle]
  rw [h1]
  have hcg2 : cacheGet (cacheSet cache (cacheKey c id)
        { value := v, expires := t0 + CACHE_TTL }) (cacheKey c id)
      = some { value := v, expires := t0 + CACHE_TTL } :=
    cacheGet_cacheSet_self _ _ _
  refine ⟨rfl, rfl, hcg2, ?_, ?_, ?_⟩
  · simp [get, hc, CACHE_ENABLED, hcg2, ht1]
  · simp [get, hc, CACHE_ENABLED, hcg2, ht1]
  · have hnot : ¬ t2 < t0 + CACHE_TTL := not_lt.mpr ht2
    cases hs2 : storeGet store2 id with
    | some w => simp [get, hc, CACHE_ENABLED, hcg2, hnot, hs2]
    | none => simp [get, hc, CACHE_ENABLED, hcg2, hnot, hs2]

/-- Witness for the C7 theorem at a concrete input (`t0 = 0`, second
read at `t1 = 1`, expired read at `t2 = CACHE_TTL`). -/
theorem get_cache_ttl_wit :
    (get "ImageData" "a" 0 [⟨"a", 0, ""⟩] []).storeRead = true ∧
    (get "ImageData" "a" 0 [⟨"a", 0, ""⟩] []).result
      = .ok (some ⟨"a", 0, ""⟩) ∧
    cacheGet (get "ImageData" "a" 0 [⟨"a", 0, ""⟩] []).cache
      (cacheKey "ImageData" "a")
      = some { value := ⟨"a", 0, ""⟩, expires := 0 + CACHE_TTL } ∧
    (get "ImageData" "a" 1 []
      (get "ImageData" "a" 0 [⟨"a", 0, ""⟩] []).cache).result
      = .ok (some ⟨"a", 0, ""⟩) ∧
    (get "ImageData" "a" 1 []
      (get "ImageData" "a" 0 [⟨"a", 0, ""⟩] []).cache).storeRead = false ∧
    (get "ImageData" "a" CACHE_TTL []
      (get "ImageData" "a" 0 [⟨"a", 0, ""⟩] []).cache).storeRead = true :=
  get_cache_ttl "ImageData" "a" ⟨"a", 0, ""⟩ 0 1 CACHE_TTL
    [⟨"a", 0, ""⟩] [] [] [] (by decide)
    (fun e h => by simp [cacheGet] at h) (by decide) (by decide) (by decide)

/-- C8: `getRange(collection, skip, take)` returns `[]` when `skip` is
at least the record count, returns `[]` when `take = 0`, and in every
case returns at most `take` records — exactly the records taken in the
store's iteration order after dropping the first `skip`. -/
theorem getRange_skip_take (store : List Rec) (skip take : Nat) :
    (store.length ≤ skip → getRange store skip take = []) ∧
    (take = 0 → getRange store skip take = []) ∧
    (getRange store skip take).length ≤ take ∧
    getRange store skip take = (store.drop skip).take take := by
  have hmain : getRange store skip take = (store.drop skip).take take := by
    unfold getRange
    by_cases h : 0 < skip
    · rw [if_pos h, getRangeLoop_eq]
      simp
    · rw [if_neg h]
      have h0 : skip = 0 := by omega
      subst h0
      rw [getRangeLoop_eq]
      simp
  refine ⟨?_, ?_, ?_, hmain⟩
  · intro h
    rw [hmain, List.drop_eq_nil_of_le h, List.take_nil]
  · intro h
    subst h
    rw [hmain, List.take_zero]
  · rw [hmain]
    exact List.length_take_le _ _

/-- Witness for the C8 theorem at concrete inputs. -/
theorem getRange_skip_take_wit :
    getRange [⟨"a", 0, ""⟩] 5 2 = [] ∧ getRange [⟨"a", 0, ""⟩] 0 0 = [] :=
  ⟨(getRange_skip_take [⟨"a", 0, ""⟩] 5 2).1 (by decide),
   (getRange_skip_take [⟨"a", 0, ""⟩] 0 0).2.1 rfl⟩

/-- C9: `clearCache(collection)` removes exactly the entries whose key
starts with `collection + ":"` — a lookup for a removed key misses,
while a key of any other collection still returns its entry
unchanged — and `clearCache()` with no argument removes every entry. -/
theorem clearCache_exact (c : String) (cache : Cache) (key : String)
    (hc : c ≠ "") :
    cacheGet (clearCache (some c) cache) key
      = (if jsStartsWith key (c ++ ":") then none
         else cacheGet cache key) ∧
    clearCache none cache = [] := by
  refine ⟨?_, rfl⟩
  simp only [clearCache]
  rw [if_neg hc]
  exact cacheGet_filter_keyPrefix (c ++ ":") cache key

/-- Witness for the C9 theorem: an entry of another collection is still
a hit after `clearCache("Mosaic")`. -/
theorem clearCache_exact_wit :
    cacheGet (clearCache (some "Mosaic")
        [("Mosaic:a", ⟨⟨"a", 0, ""⟩, 5⟩), ("ImageData:b", ⟨⟨"b", 0, ""⟩, 5⟩)])
      "ImageData:b"
      = (if jsStartsWith "ImageData:b" ("Mosaic" ++ ":") then none
         else cacheGet
           [("Mosaic:a", ⟨⟨"a", 0, ""⟩, 5⟩), ("ImageData:b", ⟨⟨"b", 0, ""⟩, 5⟩)]
           "ImageData:b") ∧
    clearCache none
        [("Mosaic:a", ⟨⟨"a", 0, ""⟩, 5⟩), ("ImageData:b", ⟨⟨"b", 0, ""⟩, 5⟩)]
      = [] :=
  clearCache_exact "Mosaic"
    [("Mosaic:a", ⟨⟨"a", 0, ""⟩, 5⟩), ("ImageData:b", ⟨⟨"b", 0, ""⟩, 5⟩)]
    "ImageData:b" (by decide)

/-- C10: `getBulk` with an empty id list or a non-array `ids` argument
returns `[]` before `getDatabase()` is ever reached — the connection is
not opened, no store operation is issued, and the cache is
untouched. -/
theorem getBulk_trivial_ids (c : String) (now : Int) (store : List Rec)
    (cache : Cache) (failSet : List String) (ids : Option (List String))
    (h : ids = none ∨ ids = some []) :
    (getBulk c ids now store cache failSet).results = [] ∧
    (getBulk c ids now store cache failSet).dbOpened = false ∧
    (getBulk c ids now store cache failSet).cache = cache := by
  rcases h with h | h <;> subst h <;> simp [getBulk]

/-- Witness for the C10 theorem at a concrete input. -/
theorem getBulk_trivial_ids_wit :
    (getBulk "Mosaic" none 0 [] [] []).results = [] ∧
    (getBulk "Mosaic" none 0 [] [] []).dbOpened = false ∧
    (getBulk "Mosaic" none 0 [] [] []).cache = [] :=
  getBulk_trivial_ids "Mosaic" 0 [] [] [] none (Or.inl rfl)

end IndexedDb
